import Mathlib

/-!
Verification of the job-search pipeline of `jobsearchengine-nextjs`.

The definitions below are a shallow embedding of the TypeScript sources:
`src/lib/job-search.ts`, `src/lib/enhanced-job-search.ts`, the simplified
search module (`enhanced-job-search-fixed`), the Prisma schema, and the API
route handlers `src/app/api/search/route.ts`,
`src/app/api/search/enhanced/route.ts`, `src/app/api/saved-jobs/route.ts`.

External network calls (the Exa retrieval provider and the OpenAI chat
completion endpoint) are modelled as oracle parameters of type
`Except Unit _` (an `error` value models a thrown/rejected promise).
JavaScript numbers are modelled as `ℚ` (the score arithmetic in the source
only uses decimal literals, addition, `Math.min`/`Math.max`/`Math.round`),
and machine strings as Lean `String` with explicit per-character lowering.
-/

namespace JobSearch

/-- Character-wise lower-casing, modelling JS `String.prototype.toLowerCase`
on the ASCII fragment the heuristics use. -/
def jsToLower (s : String) : String :=
  ⟨s.data.map Char.toLower⟩

/-- Contiguous-sublist test used to model JS `includes`. -/
def hasInfixB (pat : List Char) : List Char → Bool
  | [] => pat.isEmpty
  | c :: t => pat.isPrefixOf (c :: t) || hasInfixB pat t

/-- JS `String.prototype.includes`: substring containment. -/
def strIncludes (s pat : String) : Bool :=
  hasInfixB pat.data s.data

/-- JS `String.prototype.substring(0, n)`. -/
def strTake (s : String) (n : Nat) : String :=
  ⟨s.data.take n⟩

/-- JS string length (`.length`). -/
def strLen (s : String) : Nat :=
  s.data.length

/-- Whitespace skipped by JS `parseInt` / `parseFloat`. -/
def isJsSpace (c : Char) : Bool :=
  c = ' ' || c = '\t' || c = '\n' || c = '\r'

/-- Numeric value of a (nonempty) digit run. -/
def digitsVal (ds : List Char) : Nat :=
  ds.foldl (fun a c => a * 10 + (c.toNat - 48)) 0

/-- Parse a decimal digit prefix; `none` when there is no leading digit. -/
def parseDigitPrefix (cs : List Char) : Option Nat :=
  let ds := cs.takeWhile Char.isDigit
  if ds.isEmpty then none else some (digitsVal ds)

/-- Model of JS `parseInt(s)` (radix 10): skip leading whitespace, optional
sign, then a decimal digit prefix; `NaN` (here `none`) when no digit
follows. -/
def parseIntJS (s : String) : Option Int :=
  let cs := s.data.dropWhile isJsSpace
  match cs with
  | '-' :: rest => (parseDigitPrefix rest).map (fun n => -(n : Int))
  | '+' :: rest => (parseDigitPrefix rest).map (fun n => (n : Int))
  | _ => (parseDigitPrefix cs).map (fun n => (n : Int))

/-- Model of JS `parseFloat(s)` on its decimal (non-exponent) fragment:
skip leading whitespace, optional sign, digits with an optional fractional
part; `NaN` (here `none`) when neither the integer part nor the fractional
part contains a digit. -/
def parseFloatJS (s : String) : Option ℚ :=
  let cs := s.data.dropWhile isJsSpace
  let core : List Char → Option ℚ := fun cs =>
    let intDs := cs.takeWhile Char.isDigit
    let rest := cs.dropWhile Char.isDigit
    match rest with
    | '.' :: rest2 =>
      let fracDs := rest2.takeWhile Char.isDigit
      if intDs.isEmpty && fracDs.isEmpty then none
      else some ((digitsVal intDs : ℚ) + (digitsVal fracDs : ℚ) / (10 : ℚ) ^ fracDs.length)
    | _ => if intDs.isEmpty then none else some (digitsVal intDs : ℚ)
  match cs with
  | '-' :: rest => (core rest).map (fun q => -q)
  | '+' :: rest => core rest
  | _ => core cs

/-- Model of JS `String.prototype.trim` (ASCII whitespace fragment):
drop whitespace from both ends. -/
def jsTrim (s : String) : String :=
  ⟨(((s.data.dropWhile isJsSpace).reverse.dropWhile isJsSpace).reverse)⟩

/-- JS `Math.round`: round half up, `Math.round(x) = ⌊x + 1/2⌋`. -/
def jsRound (q : ℚ) : Int :=
  ⌊q + 1 / 2⌋

/-- The clamp `Math.min(10, Math.max(1, x))` used by the scorers. -/
def clamp110 (q : ℚ) : ℚ :=
  min 10 (max 1 q)

/-- A raw document as returned by the retrieval provider
(`jobSearch.results` elements); every field may be absent. -/
structure RawResult where
  url : Option String
  title : Option String
  text : Option String
  publishedDate : Option Int
deriving DecidableEq, Repr

/-- An element of `JobSearchResult[]` from `src/lib/job-search.ts`
(the `score` field is always set by the mapping in `searchJobsByQuery`). -/
structure JobSearchResult where
  url : String
  title : String
  content : String
  score : Int
deriving DecidableEq, Repr

/-- The user preference set (`UserPreferences` in `src/types`). -/
structure UserPreferences where
  location : Option String
  jobType : Option String
  experienceLevel : Option String
  salary : Option String
  technologies : Option String
  companySize : Option String
deriving DecidableEq, Repr

/-- JS truthy coercion `x || d` for optional strings: `undefined`/`null`
and the empty string fall back to the default. -/
def orDefault (o : Option String) (d : String) : String :=
  match o with
  | none => d
  | some s => if s = "" then d else s

/-! ### `isValidJobPosting` (src/lib/job-search.ts, lines 174-238) -/

def jobUrlPatterns : List String :=
  ["/jobs/", "/careers/", "/job/", "/career/", "/position/",
   "/opening/", "/vacancy/", "job-", "career-", "-job", "-career",
   "jobid=", "job_id=", "requisition", "posting"]

def titleJobIndicators : List String :=
  ["hiring", "job", "position", "role", "opening",
   "opportunity", "career", "vacancy", "wanted", "seeking"]

def requiredSections : List (List String) :=
  [["responsibilit", "duties", "role", "what you", "you will"],
   ["requirement", "qualification", "skill", "experience", "must have"],
   ["benefit", "offer", "perks", "salary", "compensation"]]

def excludePatterns : List String :=
  ["company overview", "about us page", "store location",
   "press release", "news article", "blog post", "case study",
   "product page", "service page", "contact us", "privacy policy",
   "terms of service", "cookie policy"]

/-- `isValidJobPosting` from `src/lib/job-search.ts`: six boolean criteria,
accept when at least 3 hold. -/
def isValidJobPosting (r : RawResult) : Bool :=
  let title := jsToLower (orDefault r.title "")
  let content := jsToLower (orDefault r.text "")
  let url := jsToLower (orDefault r.url "")
  let hasJobUrl := jobUrlPatterns.any (fun p => strIncludes url p)
  let hasTitleIndicator := titleJobIndicators.any (fun p => strIncludes title p)
  let sectionsFound :=
    (requiredSections.filter (fun g => g.any (fun t => strIncludes content t))).length
  let isExcluded := excludePatterns.any
    (fun p => strIncludes title p || strIncludes (strTake content 500) p)
  let hasSubstantialContent := strLen content > 500
  let hasApplyInstructions := strIncludes content "apply" || strIncludes content "application"
  let criteria := [hasJobUrl, hasTitleIndicator, decide (sectionsFound ≥ 2),
                   !isExcluded, hasSubstantialContent, hasApplyInstructions]
  (criteria.filter id).length ≥ 3

/-! ### `calculateInitialScore` (src/lib/job-search.ts, lines 241-268) -/

def qualityIndicators : List String :=
  ["salary", "benefits", "remote", "hybrid",
   "equity", "bonus", "pto", "vacation"]

/-- `calculateInitialScore`: base 5, +2 title match, +1/+1 content depth,
+1 quality indicators, capped by `Math.min(10, score)`. -/
def calculateInitialScore (r : RawResult) (query : String) : Int :=
  let title := jsToLower (orDefault r.title "")
  let content := jsToLower (orDefault r.text "")
  let queryLower := jsToLower query
  let s1 : Int := 5
  let s2 := if strIncludes title queryLower then s1 + 2 else s1
  let s3 := if strLen content > 2000 then s2 + 1 else s2
  let s4 := if strLen content > 4000 then s3 + 1 else s3
  let qualityCount := (qualityIndicators.filter (fun i => strIncludes content i)).length
  let s5 := if qualityCount ≥ 3 then s4 + 1 else s4
  min 10 s5

/-! ### `enhancedJobValidation` (src/lib/enhanced-job-search.ts, lines 277-336) -/

def enhancedJobUrlPatterns : List String :=
  ["/jobs/", "/careers/", "/job/", "/career/", "/position/",
   "/opening/", "/vacancy/", "job-", "career-", "-job",
   "jobid=", "job_id=", "requisition", "posting", "/apply"]

def enhancedRequiredSections : List (List String) :=
  [["responsibilit", "duties", "what you", "you will"],
   ["requirement", "qualification", "skill", "experience"],
   ["apply", "application", "submit", "send resume"]]

def enhancedExcludePatterns : List String :=
  ["company overview", "about us", "privacy policy",
   "terms of service", "news article", "press release"]

/-- Words of the query longer than 2 characters that occur in `s`
(JS `query.split(' ')` then a length/includes filter). -/
def relevanceCount (query s : String) : Nat :=
  ((jsToLower query).splitOn " ").countP
    (fun w => strLen w > 2 && strIncludes s w)

/-- `enhancedJobValidation`: hard-rejects empty title/content or content
shorter than 300 characters, then accepts iff a weighted signal sum is
at least 4. -/
def enhancedJobValidation (r : RawResult) (query : String) : Bool :=
  let title := jsToLower (orDefault r.title "")
  let content := jsToLower (orDefault r.text "")
  let url := jsToLower (orDefault r.url "")
  if title = "" || content = "" || strLen content < 300 then false
  else
    let hasJobUrl := enhancedJobUrlPatterns.any (fun p => strIncludes url p)
    let sectionsFound :=
      (enhancedRequiredSections.filter (fun g => g.any (fun t => strIncludes content t))).length
    let titleRelevance := relevanceCount query title
    let contentRelevance := relevanceCount query content
    let isExcluded := enhancedExcludePatterns.any
      (fun p => strIncludes title p || strIncludes (strTake content 1000) p)
    let validationScore : Int :=
      (if hasJobUrl then 2 else 0) + (sectionsFound : Int) * 1 +
      (if titleRelevance > 0 then 2 else 0) +
      (if contentRelevance > 1 then 1 else 0) +
      (if !isExcluded then 1 else -5) +
      (if strLen content > 1000 then 1 else 0)
    validationScore ≥ 4

/-! ### `isBasicJobPosting` (simplified module, `enhanced-job-search-fixed`) -/

def basicJobIndicators : List String :=
  ["job", "career", "position", "role", "hiring",
   "apply", "opportunity", "opening", "vacancy"]

/-- `isBasicJobPosting`: rejects empty title/content or content shorter
than 200 characters, then requires a job indicator in the title, the URL
or the first 500 content characters. -/
def isBasicJobPosting (r : RawResult) : Bool :=
  let title := jsToLower (orDefault r.title "")
  let content := jsToLower (orDefault r.text "")
  let url := jsToLower (orDefault r.url "")
  if title = "" || content = "" || strLen content < 200 then false
  else
    basicJobIndicators.any (fun i =>
      strIncludes title i || strIncludes url i || strIncludes (strTake content 500) i)

/-! ### Score arithmetic shared by the heuristic scorers -/

/-- `Math.round(score * 10) / 10`: rounding a score to one decimal. -/
def roundTenth (q : ℚ) : ℚ :=
  (jsRound (q * 10) : ℚ) / 10

/-- The recency bonus computed identically in `calculateEnhancedScore` and
`calculateSimpleScore`: `daysOld = Math.floor((now - publishedDate) / 86400000)`,
then +1 within 7 days, +0.5 within 14 days. -/
def recencyBonus (publishedDate : Option Int) (now : Int) : ℚ :=
  match publishedDate with
  | none => 0
  | some pd =>
    let daysOld : Int := ⌊(((now - pd : Int) : ℚ)) / 86400000⌋
    if daysOld ≤ 7 then 1 else if daysOld ≤ 14 then 1 / 2 else 0

/-! ### `calculateEnhancedScore` (src/lib/enhanced-job-search.ts, lines 430-470) -/

def qualitySignals : List String :=
  ["competitive salary", "benefits", "equity", "bonus",
   "health insurance", "retirement", "401k", "pto",
   "flexible", "growth opportunity", "training"]

/-- `calculateEnhancedScore`: base 5, content-depth and quality bonuses,
`strategyWeight * 2`, recency bonus, then
`Math.min(10, Math.max(1, Math.round(score * 10) / 10))`. -/
def calculateEnhancedScore (r : RawResult) (_preferences : UserPreferences)
    (strategyWeight : ℚ) (now : Int) : ℚ :=
  let content := jsToLower (orDefault r.text "")
  let s1 : ℚ := 5
  let s2 := if strLen content > 2000 then s1 + 1 else s1
  let s3 := if strLen content > 4000 then s2 + 1 else s2
  let qualityCount := (qualitySignals.filter (fun sig => strIncludes content sig)).length
  let s4 := s3 + min 2 ((qualityCount : ℚ) * (1 / 2))
  let s5 := s4 + strategyWeight * 2
  let s6 := s5 + recencyBonus r.publishedDate now
  min 10 (max 1 (roundTenth s6))

/-! ### `calculateSimpleScore` (simplified module, `enhanced-job-search-fixed`) -/

/-- `calculateSimpleScore`: base 5, title/query match, location match,
content-quality and recency bonuses, then the same round-and-clamp. -/
def calculateSimpleScore (r : RawResult) (preferences : UserPreferences)
    (content : String) (query : Option String) (now : Int) : ℚ :=
  let title := jsToLower (orDefault r.title "")
  let contentLower := jsToLower content
  let s1 : ℚ := 5
  let s2 := match query with
    | none => s1
    | some q => if q = "" then s1
                else if strIncludes title (jsToLower q) then s1 + 2 else s1
  let s3 := match preferences.location with
    | none => s2
    | some loc =>
      if loc = "" then s2
      else if loc = "Remote" && strIncludes contentLower "remote" then s2 + 3 / 2
      else if strIncludes contentLower (jsToLower loc) then s2 + 3 / 2
      else s2
  let s4 := if strLen content > 1000 then s3 + 1 / 2 else s3
  let s5 := if strLen content > 2000 then s4 + 1 / 2 else s4
  let s6 := if strIncludes contentLower "benefits" then s5 + 1 / 2 else s5
  let s7 := if strIncludes contentLower "competitive" then s6 + 1 / 2 else s6
  let s8 := s7 + recencyBonus r.publishedDate now
  min 10 (max 1 (roundTenth s8))

/-! ### Generative scoring (`calculateJobScore`, `calculateAIScore`) -/

/-- `getOpenAIResponse` from `src/lib/job-search.ts`: an empty prompt yields
`''` immediately; a provider error is caught and also yields `''`. -/
def getOpenAIResponse (api : Except Unit String) (prompt : String) : String :=
  if prompt = "" then "" else
    match api with
    | .error _ => ""
    | .ok s => s

/-- The enriched job record handed to `calculateJobScore`
(`JobSearchResult` plus the six extracted string fields). -/
structure PreScoreJob where
  url : String
  title : String
  content : String
  score : Option ℚ
  company : String
  location : String
  salary : String
  experienceLevel : String
  jobType : String
  skills : String
deriving DecidableEq, Repr

/-- `s || 'Not specified'` for an extracted string field. -/
def orNotSpecified (s : String) : String :=
  if s = "" then "Not specified" else s

/-- `o || 'Any'` for a preference field. -/
def orAny (o : Option String) : String :=
  orDefault o "Any"

/-- The preference-matching prompt of `calculateJobScore`
(src/lib/job-search.ts, lines 368-393). -/
def scorePromptFor (baseScore : ℚ) (j : PreScoreJob) (p : UserPreferences) : String :=
  "Based on the following job and user preferences, adjust the score.\nCurrent base score: "
  ++ toString baseScore ++ "/10\n\nJob Details:\n- Title: " ++ j.title
  ++ "\n- Company: " ++ j.company
  ++ "\n- Location: " ++ j.location
  ++ "\n- Salary: " ++ orNotSpecified j.salary
  ++ "\n- Experience: " ++ orNotSpecified j.experienceLevel
  ++ "\n- Type: " ++ orNotSpecified j.jobType
  ++ "\n- Skills: " ++ orNotSpecified j.skills
  ++ "\n\nUser Preferences:\n- Location: " ++ orAny p.location
  ++ "\n- Job Type: " ++ orAny p.jobType
  ++ "\n- Experience: " ++ orAny p.experienceLevel
  ++ "\n- Salary: " ++ orAny p.salary
  ++ "\n- Technologies: " ++ orAny p.technologies
  ++ "\n- Company Size: " ++ orAny p.companySize
  ++ "\n\nAdjust the score based on how well the job matches preferences:\n- Add points for exact matches\n- Subtract points for mismatches\n- Consider \"Remote\" as matching any location preference\n\nReturn ONLY a number from 1 to 10."

/-- `calculateJobScore` from `src/lib/job-search.ts`: base score
`job.score || 5`, one generative call (its outcome is the `api` argument;
`getOpenAIResponse` absorbs call errors into `''`), then
`parseInt(response.trim())`, falling back to the base score on `NaN` and
clamping the parsed value to `[1,10]` otherwise. -/
def calculateJobScore (j : PreScoreJob) (p : UserPreferences)
    (api : Except Unit String) : ℚ :=
  let baseScore : ℚ := match j.score with
    | none => 5
    | some q => if q = 0 then 5 else q
  let prompt := scorePromptFor baseScore j p
  let response := getOpenAIResponse api prompt
  match parseIntJS (jsTrim response) with
  | none => baseScore
  | some n => min 10 (max 1 ((n : ℚ)))

/-- An element of `EnhancedJobResult[]` from `src/lib/enhanced-job-search.ts`. -/
structure EnhancedJobResult where
  url : String
  title : String
  content : String
  company : String
  location : String
  salary : Option String
  experienceLevel : Option String
  jobType : Option String
  skills : Option String
  score : ℚ
  publishedDate : Option Int
  remotePolicy : Option String
deriving DecidableEq, Repr

/-- The scoring prompt of `calculateAIScore`
(src/lib/enhanced-job-search.ts, lines 538-565). -/
def aiScorePromptFor (j : EnhancedJobResult) (p : UserPreferences) : String :=
  "Rate this job match from 1-10 based on user preferences.\n\nJob Details:\n- Title: "
  ++ j.title
  ++ "\n- Company: " ++ j.company
  ++ "\n- Location: " ++ j.location
  ++ "\n- Salary: " ++ orDefault j.salary "Not specified"
  ++ "\n- Experience: " ++ orDefault j.experienceLevel "Not specified"
  ++ "\n- Type: " ++ orDefault j.jobType "Not specified"
  ++ "\n- Skills: " ++ orDefault j.skills "Not specified"
  ++ "\n- Remote Policy: " ++ orDefault j.remotePolicy "Not specified"
  ++ "\n\nUser Preferences:\n- Location: " ++ orAny p.location
  ++ "\n- Job Type: " ++ orAny p.jobType
  ++ "\n- Experience: " ++ orAny p.experienceLevel
  ++ "\n- Salary: " ++ orAny p.salary
  ++ "\n- Technologies: " ++ orAny p.technologies
  ++ "\n- Company Size: " ++ orAny p.companySize
  ++ "\n\nScoring criteria:\n- 9-10: Perfect match (exact title, location, salary, skills)\n- 7-8: Great match (most preferences met)\n- 5-6: Good match (some preferences met)\n- 3-4: Fair match (basic requirements met)\n- 1-2: Poor match (few or no preferences met)\n\nConsider remote work as location-flexible. Return only a number 1-10."

/-- `calculateAIScore` from `src/lib/enhanced-job-search.ts`: one direct
generative call; on a thrown call the heuristic `job.score` is returned;
on success the content (`'' `replaced by `'5'`) goes through `parseFloat`,
falling back to `job.score` on `NaN` and clamping to `[1,10]` otherwise. -/
def calculateAIScore (j : EnhancedJobResult) (_p : UserPreferences)
    (api : Except Unit String) : ℚ :=
  match api with
  | .error _ => j.score
  | .ok content =>
    let s := if content = "" then "5" else content
    match parseFloatJS s with
    | none => j.score
    | some q => min 10 (max 1 q)

/-! ### `deduplicateJobs` (src/lib/enhanced-job-search.ts, lines 473-490) -/

/-- The case-insensitive URL key of a candidate. -/
def urlKey (j : EnhancedJobResult) : String :=
  jsToLower j.url

/-- The normalized title-company key
(`` `${job.title.toLowerCase()}-${job.company.toLowerCase()}` ``). -/
def titleCompanyKey (j : EnhancedJobResult) : String :=
  jsToLower j.title ++ "-" ++ jsToLower j.company

/-- The accumulator loop of `deduplicateJobs`: `seen` is the running key
set; a candidate survives iff neither of its keys is in `seen`, and a
survivor adds both keys. -/
def dedupAux (seen : List String) : List EnhancedJobResult → List EnhancedJobResult
  | [] => []
  | j :: rest =>
    if seen.contains (urlKey j) || seen.contains (titleCompanyKey j) then
      dedupAux seen rest
    else
      j :: dedupAux (urlKey j :: titleCompanyKey j :: seen) rest

/-- `deduplicateJobs` from `src/lib/enhanced-job-search.ts`. -/
def deduplicateJobs (jobs : List EnhancedJobResult) : List EnhancedJobResult :=
  dedupAux [] jobs

/-- Two candidates share a deduplication key: the lowercased URL or the
lowercased title-company pair of one equals either key of the other
(all keys live in the one `seen` set in the source). -/
def sharesKeyB (a b : EnhancedJobResult) : Bool :=
  urlKey a == urlKey b || urlKey a == titleCompanyKey b ||
  titleCompanyKey a == urlKey b || titleCompanyKey a == titleCompanyKey b

/-- Declarative first-seen-wins deduplication: keep the head, drop every
later candidate sharing a key with it, recurse. Used to state what
`deduplicateJobs` computes. -/
def dedupFirstSeen : List EnhancedJobResult → List EnhancedJobResult
  | [] => []
  | j :: rest => j :: dedupFirstSeen (rest.filter (fun k => !(sharesKeyB k j)))
termination_by l => l.length
decreasing_by
  simp only [List.length_cons]
  exact Nat.lt_succ_of_le (List.length_filter_le _ _)

/-! ### The single-strategy merge of `searchJobsByQuery`
(src/lib/job-search.ts, lines 157-165): the JS idiom
`filter((job, index, self) => index === self.findIndex(j => j.url === job.url))`. -/

/-- One step of the indexed filter: `full` is the whole array (`self`),
`i` the index of the head of the remaining segment. -/
def mergeFilter (full : List JobSearchResult) : Nat → List JobSearchResult → List JobSearchResult
  | _, [] => []
  | i, x :: rest =>
    if full.findIdx (fun j => j.url == x.url) == i then
      x :: mergeFilter full (i + 1) rest
    else
      mergeFilter full (i + 1) rest

/-- The duplicate-removal filter of `searchJobsByQuery`: keep a result iff
its index equals the first index of its (exact, case-sensitive) URL. -/
def mergeDedupUrl (l : List JobSearchResult) : List JobSearchResult :=
  mergeFilter l 0 l

/-- Declarative first-occurrence-by-exact-URL deduplication, used to state
what `mergeDedupUrl` computes: a result is dropped iff its URL string was
already seen earlier in the list. -/
def seenDedupUrl (seen : List String) : List JobSearchResult → List JobSearchResult
  | [] => []
  | x :: rest =>
    if seen.contains x.url then seenDedupUrl seen rest
    else x :: seenDedupUrl (x.url :: seen) rest

/-! ### `searchJobsByQuery` (src/lib/job-search.ts, lines 38-171) -/

/-- The mapping applied to each validated raw result
(`url`, `title || 'Untitled Job'`, `text || ''`, initial score). -/
def toJobResult (query : String) (r : RawResult) : JobSearchResult :=
  { url := orDefault r.url ""
    title := orDefault r.title "Untitled Job"
    content := orDefault r.text ""
    score := calculateInitialScore r query }

/-- One search strategy of `searchJobsByQuery`: a throwing provider call is
caught in the per-strategy `try`/`catch` and contributes no results;
otherwise the raw results are validated and mapped. -/
def searchStrategyResults (retr : Except Unit (List RawResult)) (query : String) :
    List JobSearchResult :=
  match retr with
  | .error _ => []
  | .ok rs => (rs.filter isValidJobPosting).map (toJobResult query)

/-- Stable insertion into a descending run: the inserted element goes in
front of the first element it is greater than or equal to, so an
earlier-listed element precedes equal-scored later ones. -/
def insertByScoreDesc (x : JobSearchResult) : List JobSearchResult → List JobSearchResult
  | [] => [x]
  | y :: t => if y.score ≤ x.score then x :: y :: t else y :: insertByScoreDesc x t

/-- The stable descending-by-score sort
(`.sort((a, b) => (b.score || 0) - (a.score || 0))`, a stable sort per the
ECMAScript specification, modelled as stable insertion sort). -/
def sortByScoreDesc (l : List JobSearchResult) : List JobSearchResult :=
  l.foldr insertByScoreDesc []

/-- `searchJobsByQuery`: run both strategies (each with its own
`try`/`catch`), concatenate, drop exact-URL duplicates, sort by initial
score descending, truncate to `numResults`. The outer `try`/`catch`
(which would return `[]`) is unreachable in this model because every
provider call is already absorbed per strategy. -/
def searchJobsByQuery (retr1 retr2 : Except Unit (List RawResult))
    (query : String) (numResults : Nat) : List JobSearchResult :=
  let allResults := searchStrategyResults retr1 query ++ searchStrategyResults retr2 query
  let uniqueResults := sortByScoreDesc (mergeDedupUrl allResults)
  uniqueResults.take numResults

/-- `findSimilarJobs` from `src/lib/job-search.ts`: validated and mapped
with an empty query; a provider error is caught and yields `[]`. -/
def findSimilarJobs (retr : Except Unit (List RawResult)) (_numResults : Nat) :
    List JobSearchResult :=
  match retr with
  | .error _ => []
  | .ok rs => (rs.filter isValidJobPosting).map (toJobResult "")

/-! ### Persistence model (prisma/schema.prisma)

One row type per model; the store is three tables. Row ids are supplied by
the caller of a transition (modelling `cuid()` generation); the `@unique`
constraint on `Job.url` is modelled explicitly in `jobCreate`. -/

/-- A `Search` row. -/
structure SearchRow where
  id : String
  query : String
  location : Option String
  jobType : Option String
  experienceLevel : Option String
  salary : Option String
  technologies : Option String
  companySize : Option String
deriving DecidableEq, Repr

/-- A `Job` row (`url` carries a `@unique` constraint). -/
structure JobRow where
  id : String
  title : String
  url : String
  company : String
  location : String
  salary : Option String
  experienceLevel : Option String
  jobType : Option String
  skills : Option String
  content : String
  score : ℚ
  searchId : String
deriving DecidableEq, Repr

/-- A `SavedJob` row (`jobId` unique, `status` defaults to "interested"). -/
structure SavedRow where
  id : String
  jobId : String
  notes : Option String
  status : String
  createdAt : Int
  updatedAt : Int
deriving DecidableEq, Repr

/-- The relational store. -/
structure Db where
  searches : List SearchRow
  jobs : List JobRow
  saved : List SavedRow
deriving DecidableEq, Repr

/-- `prisma.job.create`: rejected (the promise throws) when another row
already holds the same URL (`url @unique`); otherwise appends the row. -/
def jobCreate (jobs : List JobRow) (row : JobRow) : Except Unit (List JobRow) :=
  if jobs.any (fun r => r.url == row.url) then .error () else .ok (jobs ++ [row])

/-- `Promise.all(allJobs.map(job => prisma.job.create(...)))`: every insert
is attempted (a rejected insert does not roll the others back), and the
combined promise succeeds only when all inserts do. Returns the resulting
table and the all-succeeded flag. -/
def createJobs : List JobRow → List JobRow → List JobRow × Bool
  | jobs, [] => (jobs, true)
  | jobs, r :: batch =>
    match jobCreate jobs r with
    | .ok jobs2 => createJobs jobs2 batch
    | .error _ => ((createJobs jobs batch).1, false)

/-! ### Generative enrichment (`extractJobInfo`, `enrichJobData`) -/

/-- The fixed per-field instruction prompts of `extractJobInfo`. -/
def extractPrompts (field : String) : Option String :=
  if field = "company" then some "Extract the company name from this job posting. Return ONLY the company name, nothing else."
  else if field = "location" then some "Extract the job location from this job posting. Return ONLY the location (city, state/country or \"Remote\"), nothing else."
  else if field = "salary" then some "Extract the salary information from this job posting. Return ONLY the salary range or amount, or \"Not specified\" if not mentioned."
  else if field = "experience" then some "Extract the required experience level from this job posting. Return ONLY one of: Entry-level, Mid-level, Senior, Lead, or Not specified."
  else if field = "jobType" then some "Extract the job type from this job posting. Return ONLY one of: Full-time, Part-time, Contract, Freelance, Internship, or Not specified."
  else if field = "skills" then some "Extract the top 5 key skills or technologies from this job posting. Return them as a comma-separated list, nothing else."
  else none

/-- Deterministic oracles standing for the two external providers: each
entry is the outcome of one network call as a function of the call inputs.
`extract` already absorbs call errors into `''` (as `getOpenAIResponse`
does); `scoreResp` and `similar` expose thrown calls as `.error`. -/
structure Oracles where
  extract : String → String → String
  scoreResp : PreScoreJob → Except Unit String
  similar : String → Except Unit (List RawResult)

/-- `extractJobInfo`: unknown fields return `''` without any call; known
fields issue one generative call over a 3000-character content prefix. -/
def extractJobInfo (o : Oracles) (content field : String) : String :=
  match extractPrompts field with
  | none => ""
  | some _ => o.extract (strTake content 3000) field

/-- `enrichJobData` from `src/lib/job-search.ts`: six parallel field
extractions (failures already degraded to `''`), then `calculateJobScore`
over the enriched record. -/
def enrichJobData (o : Oracles) (job : JobSearchResult) (p : UserPreferences) :
    PreScoreJob :=
  let pre : PreScoreJob :=
    { url := job.url
      title := job.title
      content := job.content
      score := some ((job.score : ℚ))
      company := extractJobInfo o job.content "company"
      location := extractJobInfo o job.content "location"
      salary := extractJobInfo o job.content "salary"
      experienceLevel := extractJobInfo o job.content "experience"
      jobType := extractJobInfo o job.content "jobType"
      skills := extractJobInfo o job.content "skills" }
  { pre with score := some (calculateJobScore pre p (o.scoreResp pre)) }

/-! ### `POST /search` (src/app/api/search/route.ts, lines 6-119) -/

/-- The request body (`SearchFormData`); optional fields absent when
`undefined`, with `numResults = 20` and `findSimilar = true` defaults. -/
structure SearchBody where
  query : String
  location : Option String
  jobType : Option String
  experienceLevel : Option String
  salary : Option String
  technologies : Option String
  companySize : Option String
  numResults : Option Nat
  findSimilar : Option Bool
deriving DecidableEq, Repr

/-- The JSON response of `POST /search`: the success body carries
`searchId`, `jobs` and `totalFound` with HTTP 200; the error body carries
only an `error` string with HTTP 500. -/
inductive ApiResp where
  | ok (searchId : String) (jobs : List JobRow) (totalFound : Nat)
  | err (error : String)
deriving DecidableEq, Repr

def ApiResp.statusCode : ApiResp → Nat
  | .ok .. => 200
  | .err _ => 500

def ApiResp.hasJobsField : ApiResp → Bool
  | .ok .. => true
  | .err _ => false

def ApiResp.hasErrorField : ApiResp → Bool
  | .ok .. => false
  | .err _ => true

/-- The find-similar phase: for enriched jobs scoring at least 8 (at most
3 of them), fetch similar postings, enrich each, and append it unless its
URL is already present. -/
def addSimilar (o : Oracles) (p : UserPreferences) (enrichedJobs : List PreScoreJob) :
    List PreScoreJob :=
  let topJobs := enrichedJobs.filter (fun j => 8 ≤ (j.score.getD 0))
  if topJobs.isEmpty then enrichedJobs
  else
    let similarResults :=
      ((topJobs.take 3).map (fun j => findSimilarJobs (o.similar j.url) 3)).flatten
    similarResults.foldl
      (fun acc sj =>
        let e := enrichJobData o sj p
        if acc.any (fun x => x.url == e.url) then acc else acc ++ [e])
      enrichedJobs

/-- Stable insertion step for the route-level sort. -/
def insertPreDesc (x : PreScoreJob) : List PreScoreJob → List PreScoreJob
  | [] => [x]
  | y :: t =>
    if y.score.getD 0 ≤ x.score.getD 0 then x :: y :: t
    else y :: insertPreDesc x t

/-- The stable descending sort at the end of the route
(`allJobs.sort((a, b) => b.score - a.score)`, again a stable sort per the
ECMAScript specification). -/
def sortPreDesc (l : List PreScoreJob) : List PreScoreJob :=
  l.foldr insertPreDesc []

/-- The `prisma.job.create` payload built by the route for one enriched job. -/
def mkJobRow (searchId : String) (idx : Nat) (j : PreScoreJob) : JobRow :=
  { id := searchId ++ "-job-" ++ toString idx
    title := j.title
    url := j.url
    company := j.company
    location := j.location
    salary := some j.salary
    experienceLevel := some j.experienceLevel
    jobType := some j.jobType
    skills := some j.skills
    content := j.content
    score := j.score.getD 0
    searchId := searchId }

/-- The `POST /search` handler: retrieval (errors absorbed inside
`searchJobsByQuery`), `prisma.search.create`, per-job enrichment (the
per-job `catch` is unreachable since all call errors are absorbed),
optional find-similar phase, sort, then the batched job inserts. A failed
insert (unique-URL violation) rejects `Promise.all`, reaches the outer
`catch`, and produces the 500 error body — with the search row and the
successful inserts already committed. -/
def postSearch (o : Oracles) (body : SearchBody)
    (retr1 retr2 : Except Unit (List RawResult))
    (newSearchId : String) (db : Db) : ApiResp × Db :=
  let numResults := body.numResults.getD 20
  let findSimilar := body.findSimilar.getD true
  let jobs := searchJobsByQuery retr1 retr2 body.query numResults
  let search : SearchRow :=
    { id := newSearchId, query := body.query, location := body.location
      jobType := body.jobType, experienceLevel := body.experienceLevel
      salary := body.salary, technologies := body.technologies
      companySize := body.companySize }
  let db1 : Db := { db with searches := db.searches ++ [search] }
  let p : UserPreferences :=
    { location := body.location, jobType := body.jobType
      experienceLevel := body.experienceLevel, salary := body.salary
      technologies := body.technologies, companySize := body.companySize }
  let enrichedJobs := jobs.map (fun j => enrichJobData o j p)
  let allJobs :=
    if findSimilar && !enrichedJobs.isEmpty then addSimilar o p enrichedJobs
    else enrichedJobs
  let sorted := sortPreDesc allJobs
  let rows := sorted.enum.map (fun pair => mkJobRow newSearchId pair.1 pair.2)
  let created := createJobs db1.jobs rows
  let db2 : Db := { db1 with jobs := created.1 }
  if created.2 then (.ok newSearchId rows rows.length, db2)
  else (.err "Failed to search jobs", db2)

/-! ### `getSalaryInsights` (src/app/api/search/enhanced/route.ts, lines 209-228) -/

/-- The first match of the regex `/\d+/g` on `s` (the first maximal digit
run), fed through `parseInt`; `none` when `s` has no digit. -/
def firstIntTokenAux : List Char → Option Nat
  | [] => none
  | c :: t =>
    if c.isDigit then some (digitsVal ((c :: t).takeWhile Char.isDigit))
    else firstIntTokenAux t

def firstIntToken (s : String) : Option Nat :=
  firstIntTokenAux s.data

/-- The per-candidate salary parse of `getSalaryInsights`: a truthy salary
field other than `'Not specified'`, whose first integer token is strictly
greater than 1000. -/
def salaryParsed (salary? : Option String) : Option Nat :=
  match salary? with
  | none => none
  | some s =>
    if s = "" || s = "Not specified" then none
    else
      match firstIntToken s with
      | none => none
      | some n => if 1000 < n then some n else none

/-- All parseable salaries of a result set, in order. -/
def parsedSalaries (jobs : List JobRow) : List Nat :=
  jobs.filterMap (fun j => salaryParsed j.salary)

/-- The salary-range summary object. -/
structure SalaryInsights where
  average : Int
  min : Nat
  max : Nat
  jobsWithSalary : Nat
  totalJobs : Nat
deriving DecidableEq, Repr

/-- `getSalaryInsights`: `null` when no candidate has a parseable salary,
otherwise the rounded average, `Math.min(...)`, `Math.max(...)` and the
counts. -/
def getSalaryInsights (jobs : List JobRow) : Option SalaryInsights :=
  match parsedSalaries jobs with
  | [] => none
  | s :: rest =>
    some
      { average := jsRound (((s :: rest).sum : ℚ) / (((s :: rest).length : ℚ)))
        min := rest.foldl Nat.min s
        max := rest.foldl Nat.max s
        jobsWithSalary := (s :: rest).length
        totalJobs := jobs.length }

/-! ### `PUT /saved-jobs` (src/app/api/saved-jobs/route.ts, lines 61-91) -/

/-- The JSON response of the saved-jobs handlers. -/
inductive SavedResp where
  | ok (row : SavedRow)
  | badRequest (error : String)
  | err (error : String)
deriving DecidableEq, Repr

def SavedResp.statusCode : SavedResp → Nat
  | .ok _ => 200
  | .badRequest _ => 400
  | .err _ => 500

/-- The partial-update payload applied by `prisma.savedJob.update`: a field
is written only when present in the body (`!== undefined`; an explicit JSON
`null` is the inner `none`), and `@updatedAt` bumps the timestamp. -/
def applySavedUpdate (notes? : Option (Option String)) (status? : Option String)
    (now : Int) (r : SavedRow) : SavedRow :=
  { r with
    notes := match notes? with
      | none => r.notes
      | some n => n
    status := match status? with
      | none => r.status
      | some s => s
    updatedAt := now }

/-- The `PUT /saved-jobs` handler: a falsy `id` is a 400; an unknown `id`
makes `prisma.savedJob.update` throw, caught as a 500 with the store
untouched; otherwise the one matching row receives the partial update and
the updated row is returned. -/
def putSavedJob (id? : Option String) (notes? : Option (Option String))
    (status? : Option String) (now : Int) (db : Db) : SavedResp × Db :=
  match id? with
  | none => (.badRequest "Saved job ID required", db)
  | some id =>
    if id = "" then (.badRequest "Saved job ID required", db)
    else
      match db.saved.find? (fun r => r.id == id) with
      | none => (.err "Failed to update saved job", db)
      | some r =>
        let db' : Db :=
          { db with
            saved := db.saved.map (fun s =>
              if s.id == id then applySavedUpdate notes? status? now s else s) }
        (.ok (applySavedUpdate notes? status? now r), db')

/-! ### Concrete inputs used by counterexamples and witnesses -/

/-- Empty preference set. -/
def noPrefs : UserPreferences :=
  ⟨none, none, none, none, none, none⟩

/-- Oracles whose every generative/similarity call fails (all failures are
recoverable by design, so these exercise exactly the fallback paths). -/
def trivialOracles : Oracles :=
  { extract := fun _ _ => ""
    scoreResp := fun _ => .error ()
    similar := fun _ => .error () }

/-- A short but otherwise convincing job document: job URL, hiring title,
all three semantic sections and apply instructions — yet content under
500 characters. -/
def shortValidDoc : RawResult :=
  { url := some "https://example.com/jobs/engineer"
    title := some "Hiring Engineer"
    text := some "responsibilities requirements salary apply now"
    publishedDate := none }

/-- A retrieval result whose enhanced heuristic score is non-integral. -/
def fractionalScoreDoc : RawResult :=
  { url := some "u", title := some "t", text := some "benefits", publishedDate := none }

/-- An enhanced candidate carrying heuristic score 8. -/
def jobScore8 : EnhancedJobResult :=
  { url := "u", title := "t", content := "c", company := "co", location := "l"
    salary := none, experienceLevel := none, jobType := none, skills := none
    score := 8, publishedDate := none, remotePolicy := none }

/-- Two single-strategy results differing only in URL letter case. -/
def caseUrlA : JobSearchResult :=
  { url := "https://Example.com/Jobs/1", title := "t", content := "", score := 5 }

def caseUrlB : JobSearchResult :=
  { url := "https://example.com/jobs/1", title := "t", content := "", score := 5 }

/-- The empty store. -/
def dbEmpty : Db :=
  ⟨[], [], []⟩

/-- A minimal search body with only a query. -/
def bodyEng : SearchBody :=
  { query := "engineer", location := none, jobType := none
    experienceLevel := none, salary := none, technologies := none
    companySize := none, numResults := none, findSimilar := none }

/-- The job row that an earlier search persisted for `shortValidDoc`. -/
def priorJobRow : JobRow :=
  { id := "j1", title := "Hiring Engineer", url := "https://example.com/jobs/engineer"
    company := "", location := "", salary := none, experienceLevel := none
    jobType := none, skills := none, content := "", score := 7, searchId := "s1" }

/-- A store already holding `priorJobRow` under search `s1`. -/
def dbWithJob : Db :=
  ⟨[⟨"s1", "engineer", none, none, none, none, none, none⟩], [priorJobRow], []⟩

/-- A job row whose salary field is exactly `"1000"`. -/
def jobRow1000 : JobRow :=
  { id := "j2", title := "t", url := "u2", company := "c", location := "l"
    salary := some "1000", experienceLevel := none, jobType := none
    skills := none, content := "", score := 5, searchId := "s1" }

/-- A job row whose salary field is `"2000"`. -/
def jobRow2000 : JobRow :=
  { id := "j3", title := "t", url := "u3", company := "c", location := "l"
    salary := some "2000", experienceLevel := none, jobType := none
    skills := none, content := "", score := 5, searchId := "s1" }

/-- A saved-job row used by the update-endpoint witness. -/
def savedRow1 : SavedRow :=
  { id := "sv1", jobId := "j1", notes := some "call recruiter"
    status := "interested", createdAt := 10, updatedAt := 10 }

/-- A second saved-job row that the update must not touch. -/
def savedRow2 : SavedRow :=
  { id := "sv2", jobId := "j2", notes := none
    status := "applied", createdAt := 11, updatedAt := 11 }

/-- A store with two saved jobs. -/
def dbSaved : Db :=
  ⟨[], [], [savedRow1, savedRow2]⟩

/-- An enriched job with a known heuristic score, for scoring witnesses. -/
def preJob7 : PreScoreJob :=
  { url := "u", title := "t", content := "c", score := some 7
    company := "co", location := "l", salary := "", experienceLevel := ""
    jobType := "", skills := "" }

end JobSearch

namespace JobSearch

/-! ## Helper lemmas -/

theorem strLen_jsToLower (s : String) : strLen (jsToLower s) = strLen s := by
  simp [strLen, jsToLower]

theorem parseIntJS_empty : parseIntJS "" = none := by
  decide

theorem clamp110_bounds (q : ℚ) : 1 ≤ clamp110 q ∧ clamp110 q ≤ 10 := by
  unfold clamp110
  constructor
  · exact le_min (by norm_num) (le_max_left 1 q)
  · exact min_le_left _ _

/-! ## Claim C10 -/

/-- Claim C10: for every retrieval result and query, `calculateInitialScore`
returns an integer (its codomain is `ℤ`) between 5 and 10: it starts at
base 5, only adds non-negative bonuses, and caps at 10. -/
theorem claim_C10 (r : RawResult) (query : String) :
    5 ≤ calculateInitialScore r query ∧ calculateInitialScore r query ≤ 10 := by
  simp only [calculateInitialScore]
  split_ifs <;> omega

/-! ## Claim C5 -/

theorem dedupAux_idem (l : List EnhancedJobResult) :
    ∀ seen, dedupAux seen (dedupAux seen l) = dedupAux seen l := by
  induction l with
  | nil => intro seen; rfl
  | cons j rest ih =>
    intro seen
    by_cases h : (seen.contains (urlKey j) || seen.contains (titleCompanyKey j)) = true
    · simp only [dedupAux, h, if_true]
      exact ih seen
    · simp only [dedupAux, h, if_false]
      rw [ih]
      simp

/-- Claim C5: `deduplicateJobs` is idempotent — applied to its own output
it returns that output unchanged, same candidates in the same order. -/
theorem claim_C5 (jobs : List EnhancedJobResult) :
    deduplicateJobs (deduplicateJobs jobs) = deduplicateJobs jobs :=
  dedupAux_idem jobs []

/-! ## Claim C2 -/

/-- Claim C2, counterexample: `isValidJobPosting` (the standard validator)
accepts `shortValidDoc`, whose content is only 46 characters long — far
below the alleged 500-character rejection threshold. Content length is
only one of six criteria of which three suffice. -/
theorem claim_C2_counterexample :
    isValidJobPosting shortValidDoc = true ∧
    strLen (orDefault shortValidDoc.text "") < 500 := by
  decide

/-- Claim C2 (amended): the enhanced validator rejects every document whose
content is shorter than 300 characters, and the simplified validator every
document shorter than 200 characters; the standard validator has no such
hard threshold (its 500-character check is one criterion among six). -/
theorem claim_C2_amended (r : RawResult) (query : String) :
    (strLen (orDefault r.text "") < 300 → enhancedJobValidation r query = false) ∧
    (strLen (orDefault r.text "") < 200 → isBasicJobPosting r = false) := by
  constructor
  · intro h
    have hc : strLen (jsToLower (orDefault r.text "")) < 300 := by
      rwa [strLen_jsToLower]
    simp only [enhancedJobValidation]
    rw [if_pos]
    simp [hc]
  · intro h
    have hc : strLen (jsToLower (orDefault r.text "")) < 200 := by
      rwa [strLen_jsToLower]
    simp only [isBasicJobPosting]
    rw [if_pos]
    simp [hc]

/-- Claim C2, witness: a 5-character document is rejected by both the
enhanced and the simplified validator. -/
theorem claim_C2_witness :
    enhancedJobValidation ⟨some "u", some "t", some "short", none⟩ "q" = false ∧
    isBasicJobPosting ⟨some "u", some "t", some "short", none⟩ = false :=
  ⟨(claim_C2_amended ⟨some "u", some "t", some "short", none⟩ "q").1 (by decide),
   (claim_C2_amended ⟨some "u", some "t", some "short", none⟩ "q").2 (by decide)⟩

/-! ## Claim C3 -/

/-- Claim C3, counterexample: on strategy weight 0.4 (the first enhanced
strategy) and a document containing one quality signal,
`calculateEnhancedScore` returns 6.3 — inside `[1,10]` but not an integer
(its reduced denominator is not 1). -/
theorem claim_C3_counterexample :
    calculateEnhancedScore fractionalScoreDoc noPrefs (2 / 5) 0 = 63 / 10 ∧
    ((63 : ℚ) / 10).den ≠ 1 := by
  have h2000 : ¬ strLen (jsToLower (orDefault fractionalScoreDoc.text "")) > 2000 := by
    decide
  have h4000 : ¬ strLen (jsToLower (orDefault fractionalScoreDoc.text "")) > 4000 := by
    decide
  have hq : (qualitySignals.filter
      (fun sig => strIncludes (jsToLower (orDefault fractionalScoreDoc.text "")) sig)).length
      = 1 := by
    decide
  have hpd : fractionalScoreDoc.publishedDate = none := rfl
  constructor
  · simp only [calculateEnhancedScore, h2000, h4000, hq, hpd, recencyBonus, if_false]
    norm_num [roundTenth, jsRound]
  · norm_num

theorem calculateEnhancedScore_bounds (r : RawResult) (p : UserPreferences)
    (w : ℚ) (now : Int) :
    1 ≤ calculateEnhancedScore r p w now ∧ calculateEnhancedScore r p w now ≤ 10 := by
  simp only [calculateEnhancedScore]
  exact clamp110_bounds _

theorem calculateSimpleScore_bounds (r : RawResult) (p : UserPreferences)
    (content : String) (query : Option String) (now : Int) :
    1 ≤ calculateSimpleScore r p content query now ∧
    calculateSimpleScore r p content query now ≤ 10 := by
  simp only [calculateSimpleScore]
  exact clamp110_bounds _

/-- Claim C3 (amended): every scorer path stays inside the closed interval
`[1,10]` — the enhanced and simplified heuristic scorers for all inputs,
and `calculateJobScore` whenever its incoming base score does — but the
enhanced/simplified scorers round to one decimal rather than to an
integer, so the output need not be integral. -/
theorem claim_C3_amended :
    (∀ (r : RawResult) (p : UserPreferences) (w : ℚ) (now : Int),
      1 ≤ calculateEnhancedScore r p w now ∧ calculateEnhancedScore r p w now ≤ 10) ∧
    (∀ (r : RawResult) (p : UserPreferences) (content : String)
        (query : Option String) (now : Int),
      1 ≤ calculateSimpleScore r p content query now ∧
        calculateSimpleScore r p content query now ≤ 10) ∧
    (∀ (j : PreScoreJob) (p : UserPreferences) (api : Except Unit String),
      (∀ q ∈ j.score, 1 ≤ q ∧ q ≤ 10) →
      1 ≤ calculateJobScore j p api ∧ calculateJobScore j p api ≤ 10) := by
  refine ⟨calculateEnhancedScore_bounds, calculateSimpleScore_bounds, ?_⟩
  intro j p api hbase
  simp only [calculateJobScore]
  split
  · match hs : j.score with
    | none => norm_num
    | some q =>
      have hq := hbase q (by simp [hs])
      by_cases hq0 : q = 0
      · simp only [hs, if_pos hq0]
        norm_num
      · simp only [hs, if_neg hq0]
        exact hq
  · exact clamp110_bounds _

/-- Claim C3, witness: the bounds applied at concrete inputs, with the
base-score hypothesis discharged at base score 7. -/
theorem claim_C3_witness :
    (1 ≤ calculateEnhancedScore fractionalScoreDoc noPrefs (2 / 5) 0 ∧
      calculateEnhancedScore fractionalScoreDoc noPrefs (2 / 5) 0 ≤ 10) ∧
    (1 ≤ calculateJobScore preJob7 noPrefs (.error ()) ∧
      calculateJobScore preJob7 noPrefs (.error ()) ≤ 10) :=
  ⟨claim_C3_amended.1 fractionalScoreDoc noPrefs (2 / 5) 0,
   claim_C3_amended.2.2 preJob7 noPrefs (.error ())
     (by intro q hq; simp [preJob7] at hq; subst hq; norm_num)⟩

/-! ## Claim C7 -/

theorem scorePromptFor_ne_empty (b : ℚ) (j : PreScoreJob) (p : UserPreferences) :
    scorePromptFor b j p ≠ "" := by
  intro h
  have hl := congrArg String.length h
  simp only [scorePromptFor, String.length_append] at hl
  have h1 : 0 <
      String.length "Based on the following job and user preferences, adjust the score.\nCurrent base score: " := by
    decide
  have h2 : String.length "" = 0 := rfl
  omega

theorem getOpenAIResponse_error (prompt : String) :
    getOpenAIResponse (.error ()) prompt = "" := by
  unfold getOpenAIResponse
  split <;> rfl

/-- Claim C7, counterexample: when the generative call of
`calculateAIScore` succeeds but returns empty output — unparseable numeric
output — the final score is 5, not the heuristic score 8 of the candidate
(`content || '5'` substitutes the literal `'5'`). -/
theorem claim_C7_counterexample :
    calculateAIScore jobScore8 noPrefs (.ok "") = 5 ∧
    jobScore8.score = 8 ∧ (5 : ℚ) ≠ 8 := by
  refine ⟨?_, rfl, by norm_num⟩
  have h5 : parseFloatJS "5" = some ((5 : ℕ) : ℚ) := rfl
  simp only [calculateAIScore, eq_self_iff_true, if_true]
  rw [h5]
  norm_num

/-- Claim C7 (amended): for `calculateJobScore`, a call error or
unparseable output yields the base score and parseable output yields the
clamped integer-prefix parse; for `calculateAIScore`, a call error or
nonempty unparseable output yields the heuristic score and nonempty
parseable output yields the clamped parse — except that empty successful
output is replaced by `'5'`, so the final score is then 5 regardless of
the heuristic score. -/
theorem claim_C7_amended :
    (∀ (j : PreScoreJob) (p : UserPreferences),
      calculateJobScore j p (.error ()) =
        (match j.score with
          | none => (5 : ℚ)
          | some q => if q = 0 then 5 else q)) ∧
    (∀ (j : PreScoreJob) (p : UserPreferences) (s : String),
      parseIntJS (jsTrim s) = none →
      calculateJobScore j p (.ok s) =
        (match j.score with
          | none => (5 : ℚ)
          | some q => if q = 0 then 5 else q)) ∧
    (∀ (j : PreScoreJob) (p : UserPreferences) (s : String) (n : Int),
      parseIntJS (jsTrim s) = some n →
      calculateJobScore j p (.ok s) = min 10 (max 1 ((n : ℚ)))) ∧
    (∀ (e : EnhancedJobResult) (p : UserPreferences),
      calculateAIScore e p (.error ()) = e.score) ∧
    (∀ (e : EnhancedJobResult) (p : UserPreferences) (s : String),
      s ≠ "" → parseFloatJS s = none → calculateAIScore e p (.ok s) = e.score) ∧
    (∀ (e : EnhancedJobResult) (p : UserPreferences) (s : String) (q : ℚ),
      s ≠ "" → parseFloatJS s = some q →
      calculateAIScore e p (.ok s) = min 10 (max 1 q)) ∧
    (∀ (e : EnhancedJobResult) (p : UserPreferences),
      calculateAIScore e p (.ok "") = 5) := by
  refine ⟨?_, ?_, ?_, ?_, ?_, ?_, ?_⟩
  · intro j p
    simp only [calculateJobScore, getOpenAIResponse_error]
    have ht : jsTrim "" = "" := rfl
    simp [ht, parseIntJS_empty]
  · intro j p s hs
    simp only [calculateJobScore, getOpenAIResponse,
      if_neg (scorePromptFor_ne_empty _ j p), hs]
  · intro j p s n hs
    simp only [calculateJobScore, getOpenAIResponse,
      if_neg (scorePromptFor_ne_empty _ j p), hs]
  · intro e p
    rfl
  · intro e p s hne hs
    simp only [calculateAIScore, if_neg hne, hs]
  · intro e p s q hne hs
    simp only [calculateAIScore, if_neg hne, hs]
  · intro e p
    have h5 : parseFloatJS "5" = some ((5 : ℕ) : ℚ) := rfl
    simp only [calculateAIScore, eq_self_iff_true, if_true]
    rw [h5]
    norm_num

/-- Claim C7, witness: the parseable path at output `"7"` supersedes the
heuristic score, and the call-error path falls back to it. -/
theorem claim_C7_witness :
    calculateJobScore preJob7 noPrefs (.ok "7") = min 10 (max 1 (((7 : Int) : ℚ))) ∧
    calculateAIScore jobScore8 noPrefs (.error ()) = jobScore8.score :=
  ⟨claim_C7_amended.2.2.1 preJob7 noPrefs "7" 7 (by decide),
   claim_C7_amended.2.2.2.1 jobScore8 noPrefs⟩

/-! ## Claim C9 -/

/-- Claim C9: updating a SavedJob with only `{id, status}` succeeds (200)
and rewrites the store so that exactly the matching row gets the new
status and timestamp — its notes, jobId, createdAt and id are carried over
unchanged, rows with other ids are untouched, and the job and search
tables are untouched. -/
theorem claim_C9 (db : Db) (id status : String) (now : Int)
    (hid : id ≠ "") (hfound : (db.saved.find? (fun r => r.id == id)).isSome) :
    (putSavedJob (some id) none (some status) now db).1.statusCode = 200 ∧
    (putSavedJob (some id) none (some status) now db).2.searches = db.searches ∧
    (putSavedJob (some id) none (some status) now db).2.jobs = db.jobs ∧
    (putSavedJob (some id) none (some status) now db).2.saved =
      db.saved.map (fun s =>
        if s.id = id then { s with status := status, updatedAt := now } else s) ∧
    (∀ s ∈ db.saved, s.id ≠ id → s ∈ (putSavedJob (some id) none (some status) now db).2.saved) := by
  obtain ⟨r, hr⟩ := Option.isSome_iff_exists.mp hfound
  have hput : putSavedJob (some id) none (some status) now db =
      (.ok (applySavedUpdate none (some status) now r),
       { db with saved := db.saved.map (fun s =>
          if s.id == id then applySavedUpdate none (some status) now s else s) }) := by
    simp only [putSavedJob, if_neg hid, hr]
  rw [hput]
  refine ⟨rfl, rfl, rfl, ?_, ?_⟩
  · apply List.map_congr_left
    intro a _
    by_cases h : a.id = id
    · simp [h, applySavedUpdate]
    · simp [h]
  · intro s hs hne
    simp only [List.mem_map]
    exact ⟨s, hs, by simp [hne]⟩

/-- Claim C9, witness: on a store with two saved rows, updating `sv1` from
"interested" to "applied" leaves its notes and jobId and the other row
unchanged. -/
theorem claim_C9_witness :
    (putSavedJob (some "sv1") none (some "applied") 42 dbSaved).1.statusCode = 200 ∧
    (putSavedJob (some "sv1") none (some "applied") 42 dbSaved).2.searches = dbSaved.searches ∧
    (putSavedJob (some "sv1") none (some "applied") 42 dbSaved).2.jobs = dbSaved.jobs ∧
    (putSavedJob (some "sv1") none (some "applied") 42 dbSaved).2.saved =
      dbSaved.saved.map (fun s =>
        if s.id = "sv1" then { s with status := "applied", updatedAt := 42 } else s) ∧
    (∀ s ∈ dbSaved.saved, s.id ≠ "sv1" →
      s ∈ (putSavedJob (some "sv1") none (some "applied") 42 dbSaved).2.saved) :=
  claim_C9 dbSaved "sv1" "applied" 42 (by decide) (by decide)

/-! ## Claim C8 -/

theorem foldlMinMem : ∀ (t : List ℕ) (h : ℕ), t.foldl Nat.min h ∈ h :: t := by
  intro t
  induction t with
  | nil => intro h; simp
  | cons a t ih =>
    intro h
    rw [List.foldl_cons]
    rcases List.mem_cons.mp (ih (Nat.min h a)) with h1 | h1
    · have he : Nat.min h a = min h a := rfl
      have hm : Nat.min h a = h ∨ Nat.min h a = a := by
        rcases le_total h a with hle | hle
        · exact Or.inl (by rw [he, min_eq_left hle])
        · exact Or.inr (by rw [he, min_eq_right hle])
      rw [h1]
      rcases hm with hm | hm <;> simp [hm]
    · exact List.mem_cons_of_mem _ (List.mem_cons_of_mem _ h1)

theorem foldlMinLe : ∀ (t : List ℕ) (h : ℕ), ∀ v ∈ h :: t, t.foldl Nat.min h ≤ v := by
  intro t
  induction t with
  | nil =>
    intro h v hv
    simp at hv
    simp [hv]
  | cons a t ih =>
    intro h v hv
    rw [List.foldl_cons]
    have hbase := ih (Nat.min h a) _ (List.mem_cons_self _ _)
    rcases List.mem_cons.mp hv with hveq | hv'
    · rw [hveq]
      exact le_trans hbase (Nat.min_le_left _ _)
    rcases List.mem_cons.mp hv' with hveq | hv''
    · rw [hveq]
      exact le_trans hbase (Nat.min_le_right _ _)
    · exact ih (Nat.min h a) v (List.mem_cons_of_mem _ hv'')

theorem foldlMaxMem : ∀ (t : List ℕ) (h : ℕ), t.foldl Nat.max h ∈ h :: t := by
  intro t
  induction t with
  | nil => intro h; simp
  | cons a t ih =>
    intro h
    rw [List.foldl_cons]
    rcases List.mem_cons.mp (ih (Nat.max h a)) with h1 | h1
    · have he : Nat.max h a = max h a := rfl
      have hm : Nat.max h a = h ∨ Nat.max h a = a := by
        rcases le_total h a with hle | hle
        · exact Or.inr (by rw [he, max_eq_right hle])
        · exact Or.inl (by rw [he, max_eq_left hle])
      rw [h1]
      rcases hm with hm | hm <;> simp [hm]
    · exact List.mem_cons_of_mem _ (List.mem_cons_of_mem _ h1)

theorem foldlMaxGe : ∀ (t : List ℕ) (h : ℕ), ∀ v ∈ h :: t, v ≤ t.foldl Nat.max h := by
  intro t
  induction t with
  | nil =>
    intro h v hv
    simp at hv
    simp [hv]
  | cons a t ih =>
    intro h v hv
    rw [List.foldl_cons]
    have hbase := ih (Nat.max h a) _ (List.mem_cons_self _ _)
    rcases List.mem_cons.mp hv with hveq | hv'
    · rw [hveq]
      exact le_trans (Nat.le_max_left _ _) hbase
    rcases List.mem_cons.mp hv' with hveq | hv''
    · rw [hveq]
      exact le_trans (Nat.le_max_right _ _) hbase
    · exact ih (Nat.max h a) v (List.mem_cons_of_mem _ hv'')

/-- Claim C8, counterexample: a candidate whose salary field is exactly
`"1000"` — first integer token 1000, which is `≥ 1000` — is excluded (the
code filter is strictly `> 1000`), so the whole salary range is omitted. -/
theorem claim_C8_counterexample :
    getSalaryInsights [jobRow1000] = none ∧ firstIntToken "1000" = some 1000 := by
  decide

/-- Claim C8 (amended): the salary range is omitted exactly when no
candidate has a parseable salary, where parseable means a truthy salary
field other than `'Not specified'` whose first integer token is strictly
greater than 1000; when present, min/max/average are taken over exactly
those parsed first tokens. -/
theorem claim_C8_amended (jobs : List JobRow) :
    (getSalaryInsights jobs = none ↔ parsedSalaries jobs = []) ∧
    (∀ r, getSalaryInsights jobs = some r →
      r.min ∈ parsedSalaries jobs ∧
      r.max ∈ parsedSalaries jobs ∧
      (∀ v ∈ parsedSalaries jobs, r.min ≤ v ∧ v ≤ r.max) ∧
      r.jobsWithSalary = (parsedSalaries jobs).length ∧
      r.totalJobs = jobs.length ∧
      r.average =
        jsRound (((parsedSalaries jobs).sum : ℚ) / (((parsedSalaries jobs).length : ℚ)))) ∧
    (∀ v ∈ parsedSalaries jobs, 1000 < v) := by
  refine ⟨?_, ?_, ?_⟩
  · cases hp : parsedSalaries jobs with
    | nil => simp [getSalaryInsights, hp]
    | cons s rest => simp [getSalaryInsights, hp]
  · intro r hr
    cases hp : parsedSalaries jobs with
    | nil => rw [getSalaryInsights, hp] at hr; exact absurd hr (by simp)
    | cons s rest =>
      rw [getSalaryInsights, hp] at hr
      have hr' := Option.some.inj hr
      subst hr'
      refine ⟨?_, ?_, ?_, rfl, rfl, rfl⟩
      · exact foldlMinMem rest s
      · exact foldlMaxMem rest s
      · intro v hv
        exact ⟨foldlMinLe rest s v hv, foldlMaxGe rest s v hv⟩
  · intro v hv
    simp only [parsedSalaries, List.mem_filterMap] at hv
    obtain ⟨j, _, hj⟩ := hv
    unfold salaryParsed at hj
    split at hj
    · exact absurd hj (by simp)
    · split_ifs at hj
      split at hj
      · exact absurd hj (by simp)
      · split_ifs at hj with hgt
        rwa [← Option.some.inj hj]

/-- Claim C8, witness: on a single candidate with salary `"2000"`, the
range is present, its min is a member of the parsed salaries, and every
parsed salary exceeds 1000. -/
theorem claim_C8_witness :
    (2000 : ℕ) ∈ parsedSalaries [jobRow2000] ∧ (1000 : ℕ) < 2000 :=
  ⟨((claim_C8_amended [jobRow2000]).2.1 ⟨2000, 2000, 2000, 1, 1⟩
      (by
        have hp : parsedSalaries [jobRow2000] = [2000] := by decide
        rw [getSalaryInsights, hp]
        norm_num [jsRound])).1,
   (claim_C8_amended [jobRow2000]).2.2 2000 (by decide)⟩

/-! ## Claim C6 -/

theorem dedupAux_eq_filter :
    ∀ (l : List EnhancedJobResult) (seen : List String),
    dedupAux seen l = dedupFirstSeen (l.filter (fun k =>
      !(seen.contains (urlKey k)) && !(seen.contains (titleCompanyKey k)))) := by
  intro l
  induction l with
  | nil => intro seen; simp [dedupAux, dedupFirstSeen]
  | cons j rest ih =>
    intro seen
    by_cases h : (seen.contains (urlKey j) || seen.contains (titleCompanyKey j)) = true
    · have hpred : (!(seen.contains (urlKey j)) && !(seen.contains (titleCompanyKey j))) = false := by
        have h' := h
        simp only [Bool.or_eq_true] at h'
        rcases h' with h1 | h1 <;> (simp at h1; simp [h1])
      simp only [dedupAux, h, if_true, List.filter_cons, hpred, Bool.false_eq_true, if_false]
      exact ih seen
    · have h' := h
      simp at h'
      obtain ⟨hm1, hm2⟩ := h'
      have hcond : (seen.contains (urlKey j) || seen.contains (titleCompanyKey j)) = false := by
        simp [hm1, hm2]
      have hpred : (!(seen.contains (urlKey j)) && !(seen.contains (titleCompanyKey j))) = true := by
        simp [hm1, hm2]
      simp only [dedupAux, hcond, Bool.false_eq_true, if_false, List.filter_cons, hpred, if_true]
      rw [dedupFirstSeen]
      congr 1
      rw [ih (urlKey j :: titleCompanyKey j :: seen)]
      congr 1
      rw [List.filter_filter]
      apply List.filter_congr
      intro a _
      simp only [List.contains_cons, sharesKeyB]
      cases hb1 : urlKey a == urlKey j <;> cases hb2 : urlKey a == titleCompanyKey j <;>
        cases hb3 : seen.contains (urlKey a) <;> cases hb4 : titleCompanyKey a == urlKey j <;>
          cases hb5 : titleCompanyKey a == titleCompanyKey j <;>
            cases hb6 : seen.contains (titleCompanyKey a) <;> rfl

/-- The indexed-filter condition of the merge holds at the head of the
remaining segment exactly when its URL does not occur earlier. -/
theorem findIdxUrl_eq_length_iff :
    ∀ (pre : List JobSearchResult) (x : JobSearchResult) (rest : List JobSearchResult),
    (pre ++ x :: rest).findIdx (fun j => j.url == x.url) = pre.length ↔
      x.url ∉ pre.map JobSearchResult.url := by
  intro pre
  induction pre with
  | nil =>
    intro x rest
    simp [List.findIdx_cons]
  | cons a pre ih =>
    intro x rest
    rw [List.cons_append, List.findIdx_cons]
    by_cases h : (a.url == x.url) = true
    · have heq : a.url = x.url := by simpa using h
      simp [h, heq]
    · have hne : a.url ≠ x.url := by simpa using h
      simp only [h, cond_false, List.length_cons, Nat.add_right_cancel_iff,
        List.map_cons, List.mem_cons, not_or]
      rw [ih x rest]
      constructor
      · intro hnp
        exact ⟨fun hx => hne hx.symm, hnp⟩
      · intro ⟨_, hnp⟩
        exact hnp

theorem mergeFilter_eq_seenDedup :
    ∀ (xs pre : List JobSearchResult) (seen : List String),
    (∀ u, seen.contains u = true ↔ u ∈ pre.map JobSearchResult.url) →
    mergeFilter (pre ++ xs) pre.length xs = seenDedupUrl seen xs := by
  intro xs
  induction xs with
  | nil => intro pre seen _; rfl
  | cons x rest ih =>
    intro pre seen hs
    have hl : pre ++ x :: rest = (pre ++ [x]) ++ rest := by simp
    have hlen : pre.length + 1 = (pre ++ [x]).length := by simp
    by_cases hmem : seen.contains x.url = true
    · have hpre : x.url ∈ pre.map JobSearchResult.url := (hs x.url).mp hmem
      have hidx : ¬ (pre ++ x :: rest).findIdx (fun j => j.url == x.url) = pre.length :=
        fun hc => (findIdxUrl_eq_length_iff pre x rest).mp hc hpre
      rw [mergeFilter, seenDedupUrl, if_neg (by simpa using hidx), if_pos hmem, hl, hlen]
      apply ih
      intro u
      rw [hs u]
      simp only [List.map_append, List.mem_append, List.map_cons, List.map_nil,
        List.mem_singleton]
      constructor
      · intro hu
        exact Or.inl hu
      · intro hu
        rcases hu with hu | hu
        · exact hu
        · rw [hu]
          exact hpre
    · have hpre : x.url ∉ pre.map JobSearchResult.url :=
        fun hc => hmem ((hs x.url).mpr hc)
      have hidx : (pre ++ x :: rest).findIdx (fun j => j.url == x.url) = pre.length :=
        (findIdxUrl_eq_length_iff pre x rest).mpr hpre
      rw [mergeFilter, seenDedupUrl, if_pos (by simpa using hidx),
        if_neg (by simpa using hmem), hl, hlen]
      congr 1
      apply ih
      intro u
      simp only [List.contains_cons, Bool.or_eq_true, List.map_append, List.mem_append,
        List.map_cons, List.map_nil, List.mem_singleton]
      rw [hs u]
      constructor
      · intro hu
        rcases hu with hu | hu
        · exact Or.inr (by simpa using hu)
        · exact Or.inl hu
      · intro hu
        rcases hu with hu | hu
        · exact Or.inr hu
        · exact Or.inl (by simpa using hu)

/-- Claim C6, counterexample: the single-strategy merge of
`searchJobsByQuery` keeps both of two candidates whose URLs differ only in
letter case (and whose titles coincide) — the pass is keyed on the exact
URL string, not on the case-insensitive URL or the (title, company) pair
(the merged records carry no company field at all). -/
theorem claim_C6_counterexample :
    mergeDedupUrl [caseUrlA, caseUrlB] = [caseUrlA, caseUrlB] ∧
    jsToLower caseUrlB.url = jsToLower caseUrlA.url ∧
    caseUrlB.title = caseUrlA.title := by
  refine ⟨by decide, by decide, rfl⟩

/-- Claim C6 (amended): the enhanced deduplication pass keeps the first
occurrence and drops a later candidate exactly when it shares a
normalized key (lowercased URL, or lowercased title-company pair, either
kind matching either kind) with an earlier surviving candidate; the
single-strategy merge in `searchJobsByQuery` instead keeps the first
occurrence of each exact URL string — case-insensitive normalization and
the (title, company) key play no role there. -/
theorem claim_C6_amended :
    (∀ (jobs : List EnhancedJobResult), deduplicateJobs jobs = dedupFirstSeen jobs) ∧
    (∀ (l : List JobSearchResult), mergeDedupUrl l = seenDedupUrl [] l) := by
  constructor
  · intro jobs
    rw [deduplicateJobs, dedupAux_eq_filter]
    simp
  · intro l
    have h := mergeFilter_eq_seenDedup l [] [] (fun u => by simp)
    simpa [mergeDedupUrl] using h

/-! ## Claim C1 -/

/-- Claim C1, counterexample: with both retrieval strategies throwing,
`POST /search` still answers HTTP 200 with a `jobs` field (and no `error`
field), and a SearchRequest row is persisted — the provider errors are
swallowed inside `searchJobsByQuery`, which returns `[]`. -/
theorem claim_C1_counterexample :
    (postSearch trivialOracles bodyEng (.error ()) (.error ()) "s1" dbEmpty).1.statusCode = 200 ∧
    (postSearch trivialOracles bodyEng (.error ()) (.error ()) "s1" dbEmpty).1.hasJobsField = true ∧
    (postSearch trivialOracles bodyEng (.error ()) (.error ()) "s1" dbEmpty).1.hasErrorField = false ∧
    (postSearch trivialOracles bodyEng (.error ()) (.error ()) "s1" dbEmpty).2.searches ≠ [] := by
  refine ⟨by decide, by decide, by decide, by decide⟩

/-- Claim C1 (amended): when every retrieval provider call throws,
`searchJobsByQuery` catches the errors and returns `[]`; `POST /search`
then returns HTTP 200 with `jobs: []`, `totalFound: 0` and a fresh
`searchId`, and the store gains exactly one SearchRequest row (built from
the request body) with no JobCandidate rows. -/
theorem claim_C1_amended (o : Oracles) (body : SearchBody) (id : String) (db : Db) :
    postSearch o body (.error ()) (.error ()) id db =
      (.ok id [] 0,
       { db with searches := db.searches ++
          [⟨id, body.query, body.location, body.jobType, body.experienceLevel,
            body.salary, body.technologies, body.companySize⟩] }) := by
  simp [postSearch, searchJobsByQuery, searchStrategyResults, mergeDedupUrl, mergeFilter,
    sortByScoreDesc, sortPreDesc, createJobs, addSimilar]

/-! ## Claim C4 -/

theorem itePairSnd {c : Prop} [Decidable c] (a b : ApiResp) (d : Db) :
    (if c then (a, d) else (b, d)).2 = d := by
  split <;> rfl

theorem jobCreate_dup (jobs : List JobRow) (row : JobRow)
    (h : row.url ∈ jobs.map JobRow.url) : jobCreate jobs row = .error () := by
  unfold jobCreate
  rw [if_pos]
  simp only [List.any_eq_true]
  obtain ⟨x, hx, hxe⟩ := List.mem_map.mp h
  exact ⟨x, hx, by simp [hxe]⟩

theorem jobCreate_ok (jobs : List JobRow) (row : JobRow) (out : List JobRow)
    (h : jobCreate jobs row = .ok out) :
    out = jobs ++ [row] ∧ row.url ∉ jobs.map JobRow.url := by
  unfold jobCreate at h
  split_ifs at h with hc
  refine ⟨(Except.ok.inj h).symm, ?_⟩
  intro hmem
  apply hc
  simp only [List.any_eq_true]
  obtain ⟨x, hx, hxe⟩ := List.mem_map.mp hmem
  exact ⟨x, hx, by simp [hxe]⟩

theorem createJobs_append :
    ∀ (batch jobs : List JobRow), ∃ t, (createJobs jobs batch).1 = jobs ++ t := by
  intro batch
  induction batch with
  | nil => intro jobs; exact ⟨[], by simp [createJobs]⟩
  | cons r rest ih =>
    intro jobs
    rw [createJobs]
    unfold jobCreate
    by_cases h : jobs.any (fun x => x.url == r.url) = true
    · simp only [h, if_true]
      exact ih jobs
    · simp only [h, Bool.false_eq_true, if_false]
      obtain ⟨t, ht⟩ := ih (jobs ++ [r])
      exact ⟨[r] ++ t, by rw [ht]; simp⟩

theorem createJobs_nodup :
    ∀ (batch jobs : List JobRow),
    (jobs.map JobRow.url).Nodup → ((createJobs jobs batch).1.map JobRow.url).Nodup := by
  intro batch
  induction batch with
  | nil => intro jobs h; simpa [createJobs]
  | cons r rest ih =>
    intro jobs h
    rw [createJobs]
    unfold jobCreate
    by_cases hc : jobs.any (fun x => x.url == r.url) = true
    · simp only [hc, if_true]
      exact ih jobs h
    · simp only [hc, Bool.false_eq_true, if_false]
      apply ih
      have hnotin : r.url ∉ jobs.map JobRow.url := by
        intro hmem
        apply hc
        simp only [List.any_eq_true]
        obtain ⟨x, hx, hxe⟩ := List.mem_map.mp hmem
        exact ⟨x, hx, by simp [hxe]⟩
      simp [List.nodup_append, h, hnotin, List.disjoint_left]

/-- Claim C4, counterexample: a re-search retrieving the URL already
persisted under SearchRequest `s1` does not create a row under the new
SearchRequest `s2` — the unique-URL insert rejects, `POST /search`
answers 500, and the job table is unchanged. -/
theorem claim_C4_counterexample :
    (postSearch trivialOracles bodyEng (.ok [shortValidDoc]) (.error ()) "s2" dbWithJob).1.statusCode = 500 ∧
    (postSearch trivialOracles bodyEng (.ok [shortValidDoc]) (.error ()) "s2" dbWithJob).2.jobs = dbWithJob.jobs := by
  refine ⟨by decide, by decide⟩

/-- Claim C4 (amended): JobCandidate rows are append-only — no handler
mutates an existing row, and `POST /search` only ever appends to the job
table — but `Job.url` is globally unique: creating a row whose URL already
exists fails, so a re-search cannot persist the same URL under a second
SearchRequest, and the batched insert preserves URL uniqueness. -/
theorem claim_C4_amended :
    (∀ (jobs : List JobRow) (row : JobRow),
      row.url ∈ jobs.map JobRow.url → jobCreate jobs row = .error ()) ∧
    (∀ (jobs : List JobRow) (row : JobRow) (out : List JobRow),
      jobCreate jobs row = .ok out →
      out = jobs ++ [row] ∧ row.url ∉ jobs.map JobRow.url) ∧
    (∀ (o : Oracles) (body : SearchBody) (r1 r2 : Except Unit (List RawResult))
        (id : String) (db : Db),
      ∃ t, (postSearch o body r1 r2 id db).2.jobs = db.jobs ++ t) ∧
    (∀ (jobs batch : List JobRow),
      (jobs.map JobRow.url).Nodup → ((createJobs jobs batch).1.map JobRow.url).Nodup) := by
  refine ⟨jobCreate_dup, jobCreate_ok, ?_, fun jobs batch h => createJobs_nodup batch jobs h⟩
  intro o body r1 r2 id db
  simp only [postSearch]
  rw [itePairSnd]
  exact createJobs_append _ _

/-- Claim C4, witness: the duplicate-URL insert fails on the populated
store, and the batched insert keeps the URL column duplicate-free. -/
theorem claim_C4_witness :
    jobCreate dbWithJob.jobs priorJobRow = Except.error () ∧
    ((createJobs dbWithJob.jobs [priorJobRow]).1.map JobRow.url).Nodup :=
  ⟨claim_C4_amended.1 dbWithJob.jobs priorJobRow (by decide),
   claim_C4_amended.2.2.2 dbWithJob.jobs [priorJobRow] (by decide)⟩

end JobSearch
